import Mathlib

/-!
Verification of the GroupAuth Dstack TEE agent (src/agent/app.py).

The agent derives an identity from an attestation service, registers it in
an on-ledger membership registry, and then runs a polling watcher loop that
onboards newly registered members by encrypting a shared secret to their
public key and submitting an onboarding transaction.

The embedding below models:
  - bytes as lists of naturals (each entry one byte),
  - the keccak-256 hash used for the member identifier,
  - the startup sequence (signature-chain extraction, member-id derivation,
    idempotent registration),
  - the watcher loop: one poll tick as a pure function of an environment
    (chain head, event logs, registry reads, encryption and transaction
    outcomes) and of the watcher state (watermark plus dedup set).

External collaborators (the RPC node, the registry contract, the ECIES
encryption routine, the secp256k1 public-key derivation) are modelled as
parameters of the tick environment or of the pipeline, exactly at the
call boundaries that app.py uses.
-/

namespace GroupAuth

/-- A byte string: a list of naturals, each entry one byte. -/
abbrev Bytes := List Nat

/-- A member identifier: a 32-byte value (bytes32 on the ledger). -/
abbrev MemberId := Bytes

/-- A MemberRegistered event as decoded from a log entry: the registered
member id and the block the log sits in. -/
structure Event where
  memberId : MemberId
  blockNumber : Nat
deriving DecidableEq, Repr

/-- Outcome of submitting an onboarding transaction and waiting for its
receipt, as seen by app.py. The receipt wait either returns a receipt whose
status field is 1 (confirmed) or 0 (reverted), or raises a timeout
exception. app.py never reads the status field of the receipt. -/
inductive TxOutcome where
  | confirmed
  | reverted
  | timedOut
deriving DecidableEq, Repr

/-- An uncaught Python exception inside the watcher loop body, tagged with
the member id of the event being handled when it was raised. app.py has no
try/except around the loop body, so any such exception terminates the
process. -/
inductive AgentError where
  | readError (m : MemberId)
  | encryptionError (m : MemberId)
  | txTimeout (m : MemberId)
deriving DecidableEq, Repr

/-- The member id an uncaught exception was raised for. -/
def errMember : AgentError → MemberId
  | .readError m => m
  | .encryptionError m => m
  | .txTimeout m => m

/-- The environment one poll tick runs against: the chain head, the event
logs per block range, the getMember registry read (returning the compressed
pubkey stored for a member, or failing), the ECIES encryption routine
(pubkey and plaintext to ciphertext, or failing on a malformed key), and
the outcome of the onboarding transaction per recipient. -/
structure TickEnv where
  currentBlock : Nat
  logs : Nat → Nat → List Event
  getMember : MemberId → Option Bytes
  encrypt : Bytes → Bytes → Option Bytes
  txOutcome : MemberId → TxOutcome

/-- The watcher state: the watermark last_block and the in-memory dedup
set onboarded (modelled as a list; app.py inserts only after a
non-membership check, so the list never holds duplicates). -/
structure WatcherState where
  lastBlock : Nat
  onboarded : List MemberId
deriving DecidableEq, Repr

/-- An onboarding transaction submitted to the registry. -/
structure OnboardTx where
  fromId : MemberId
  toId : MemberId
  payload : Bytes
deriving DecidableEq, Repr

/-- The result of one poll tick: the watcher state when the tick ended (or
when the process died), the onboarding transactions submitted during the
tick, whether get_logs was called, and the uncaught exception if one was
raised. -/
structure TickResult where
  state : WatcherState
  txs : List OnboardTx
  fetched : Bool
  crashed : Option AgentError
deriving Repr

/-- The per-event body of the for-loop in app.py lines 111 to 126, folded
over the fetched event list. Returns the dedup set as mutated so far, the
transactions submitted so far, and the exception that aborted the fold, if
any. Mirrors the source exactly: a self or duplicate id is skipped; a
getMember failure, an encryption failure or a receipt-wait timeout raises;
a returned receipt is never inspected, so a reverted transaction is
indistinguishable from a confirmed one and the member is added to the
dedup set either way. -/
def processEvents (myId : MemberId) (secret : Bytes) (env : TickEnv) :
    List MemberId → List Event → List MemberId × List OnboardTx × Option AgentError
  | onboarded, [] => (onboarded, [], none)
  | onboarded, evt :: rest =>
    if evt.memberId = myId ∨ evt.memberId ∈ onboarded then
      processEvents myId secret env onboarded rest
    else
      match env.getMember evt.memberId with
      | none => (onboarded, [], some (.readError evt.memberId))
      | some pk =>
        match env.encrypt pk secret with
        | none => (onboarded, [], some (.encryptionError evt.memberId))
        | some payload =>
          match env.txOutcome evt.memberId with
          | .timedOut =>
            (onboarded, [⟨myId, evt.memberId, payload⟩], some (.txTimeout evt.memberId))
          | .confirmed =>
            let r := processEvents myId secret env (evt.memberId :: onboarded) rest
            (r.1, ⟨myId, evt.memberId, payload⟩ :: r.2.1, r.2.2)
          | .reverted =>
            let r := processEvents myId secret env (evt.memberId :: onboarded) rest
            (r.1, ⟨myId, evt.memberId, payload⟩ :: r.2.1, r.2.2)

/-- One poll tick of the watcher loop, app.py lines 107 to 128. If the
chain head has not advanced the tick does nothing. Otherwise it fetches
the logs in the half-open range and folds the loop body over them; the
watermark is assigned only by the statement after the for-loop, so an
exception leaves it at its old value while keeping the dedup-set
mutations already performed. -/
def tick (myId : MemberId) (secret : Bytes) (env : TickEnv) (st : WatcherState) :
    TickResult :=
  if env.currentBlock > st.lastBlock then
    let r := processEvents myId secret env st.onboarded
      (env.logs (st.lastBlock + 1) env.currentBlock)
    match r.2.2 with
    | some e => ⟨⟨st.lastBlock, r.1⟩, r.2.1, true, some e⟩
    | none => ⟨⟨env.currentBlock, r.1⟩, r.2.1, true, none⟩
  else ⟨st, [], false, none⟩

/-- The watcher loop run over a finite trace of tick environments. An
uncaught exception terminates the process, so the run stops at the first
crashing tick and returns the state at death. -/
def runTicks (myId : MemberId) (secret : Bytes) :
    List TickEnv → WatcherState → WatcherState
  | [], st => st
  | env :: rest, st =>
    let r := tick myId secret env st
    match r.crashed with
    | some _ => r.state
    | none => runTicks myId secret rest r.state

/-! Keccak-256, the hash behind Web3.solidity_keccak. State lanes are
64-bit words carried as naturals below 2 to the 64; indices follow the
flat convention lane (x, y) at position x + 5 * y. -/

/-- Rotate a 64-bit lane left by n bits (n below 64). -/
def rotl64 (x n : Nat) : Nat :=
  ((x <<< n) % (2 ^ 64)) ||| (x >>> (64 - n))

/-- Bitwise complement of a 64-bit lane. -/
def not64 (x : Nat) : Nat := Nat.xor x (2 ^ 64 - 1)

/-- Keccak theta step. -/
def theta (s : List Nat) : List Nat :=
  let c := fun x => Nat.xor (s.getD x 0) (Nat.xor (s.getD (x + 5) 0)
    (Nat.xor (s.getD (x + 10) 0) (Nat.xor (s.getD (x + 15) 0) (s.getD (x + 20) 0))))
  let d := fun x => Nat.xor (c ((x + 4) % 5)) (rotl64 (c ((x + 1) % 5)) 1)
  (List.range 25).map (fun i => Nat.xor (s.getD i 0) (d (i % 5)))

/-- Rotation offsets of the rho step at flat index x + 5 * y, generated
from the triangular numbers along the standard position walk that starts
at lane (1, 0) and steps (x, y) to (y, 2x + 3y mod 5); lane (0, 0) keeps
offset zero. -/
def rhoOffsets : List Nat :=
  ((List.range 24).foldl
    (fun (acc : List Nat × Nat × Nat) t =>
      (acc.1.set (acc.2.1 + 5 * acc.2.2) (((t + 1) * (t + 2) / 2) % 64),
       acc.2.2, (2 * acc.2.1 + 3 * acc.2.2) % 5))
    (List.replicate 25 0, 1, 0)).1

/-- Keccak rho and pi steps combined: output lane (X, Y) is the input lane
((X + 3 Y) mod 5, X) rotated by its rho offset. -/
def rhoPi (s : List Nat) : List Nat :=
  (List.range 25).map (fun j =>
    let src := (j % 5 + 3 * (j / 5)) % 5 + 5 * (j % 5)
    rotl64 (s.getD src 0) (rhoOffsets.getD src 0))

/-- Keccak chi step. -/
def chi (s : List Nat) : List Nat :=
  (List.range 25).map (fun j =>
    Nat.xor (s.getD j 0)
      (Nat.land (not64 (s.getD ((j % 5 + 1) % 5 + 5 * (j / 5)) 0))
        (s.getD ((j % 5 + 2) % 5 + 5 * (j / 5)) 0)))

/-- Output bits of the degree-8 LFSR (feedback 0x71 on overflow of the
shifted register) that generates the iota round constants; the register
starts at 1 and the low bit is emitted each step. -/
def lfsrBits : Nat → Nat → List Nat
  | 0, _ => []
  | n + 1, r =>
    r % 2 :: lfsrBits n
      (if r &&& 0x80 = 0 then (r <<< 1) % 256 else ((r <<< 1) ^^^ 0x71) % 256)

/-- Round constants of the iota step: round i collects LFSR bits
7 i .. 7 i + 6 at bit positions 2 ^ j - 1 of the lane. -/
def roundConstants : List Nat :=
  (List.range 24).map (fun i =>
    (List.range 7).foldl
      (fun acc j => acc + ((lfsrBits 168 1).getD (7 * i + j) 0) <<< (2 ^ j - 1)) 0)

/-- One keccak-f round: theta, rho, pi, chi, iota. -/
def keccakRound (i : Nat) (s : List Nat) : List Nat :=
  let t := chi (rhoPi (theta s))
  t.set 0 (Nat.xor (t.getD 0 0) (roundConstants.getD i 0))

/-- The keccak-f[1600] permutation: 24 rounds. -/
def keccakF (s : List Nat) : List Nat :=
  (List.range 24).foldl (fun acc i => keccakRound i acc) s

/-- Multi-rate padding for keccak-256 (rate 136 bytes, domain byte 0x01,
final bit 0x80; a single-byte pad collapses to 0x81). -/
def keccakPad (msg : Bytes) : Bytes :=
  let padlen := 136 - msg.length % 136
  if padlen = 1 then msg ++ [0x81]
  else msg ++ [0x01] ++ List.replicate (padlen - 2) 0 ++ [0x80]

/-- Read a little-endian 64-bit lane from a byte list. -/
def bytesToLane (bs : Bytes) : Nat :=
  bs.foldr (fun b acc => b + 256 * acc) 0

/-- XOR one 136-byte block into the first 17 lanes and permute. -/
def absorbBlock (s : List Nat) (block : Bytes) : List Nat :=
  let lanes := (List.range 17).map (fun i => bytesToLane ((block.drop (8 * i)).take 8))
  keccakF ((List.range 25).map (fun i => Nat.xor (s.getD i 0) (lanes.getD i 0)))

/-- Absorb a padded message block by block. -/
def absorb (s : List Nat) (bs : Bytes) : List Nat :=
  match bs with
  | [] => s
  | b :: rest => absorb (absorbBlock s ((b :: rest).take 136)) ((b :: rest).drop 136)
termination_by bs.length
decreasing_by
  simp only [List.length_drop, List.length_cons]
  omega

/-- Keccak-256 of a byte string: absorb the padded input into the all-zero
state and squeeze the first 32 bytes of the final state, little-endian
within each lane. -/
def keccak256 (msg : Bytes) : Bytes :=
  let s := absorb (List.replicate 25 0) (keccakPad msg)
  (List.range 32).map (fun i => ((s.getD (i / 8) 0) >>> (8 * (i % 8))) % 256)

/-! The member identifier, app.py line 71: my_member_id is
Web3.solidity_keccak applied to the single dynamic bytes argument
my_pubkey. The solidity packed encoding of one bytes argument is the raw
byte string itself, so the identifier is keccak-256 of the compressed
public key. -/

/-- Solidity packed encoding of a single dynamic bytes argument: the raw
bytes, unpadded. -/
def encodePackedBytes (bs : Bytes) : Bytes := bs

/-- Web3.solidity_keccak on the single type list bytes: keccak-256 of the
packed encoding. -/
def solidityKeccakBytes (bs : Bytes) : Bytes := keccak256 (encodePackedBytes bs)

/-- The member identifier derived from a compressed public key,
app.py line 71. -/
def memberIdOf (pubkey : Bytes) : Bytes := solidityKeccakBytes pubkey

/-! The startup sequence, app.py lines 32 to 83: key retrieval and
truncation, signature-chain extraction, identity derivation, and the
idempotent registration step. The secp256k1 public-key derivation
performed by the eth_keys library is an external collaborator and enters
the model as a function parameter pubkeyDerive. -/

/-- The derived private key, app.py line 33: the key returned by the
attestation service truncated to its first 32 bytes. The source hex-decodes
the string form first; the model starts from the decoded bytes. -/
def derivedKeyOf (key : Bytes) : Bytes := key.take 32

/-- The compressed public key of the derived key, app.py line 41, with the
secp256k1 derivation abstracted as pubkeyDerive. -/
def derivedPubkeyOf (pubkeyDerive : Bytes → Bytes) (key : Bytes) : Bytes :=
  pubkeyDerive (derivedKeyOf key)

/-- The member id of this agent as computed from the attestation key,
app.py lines 70 and 71. -/
def memberIdFromKey (pubkeyDerive : Bytes → Bytes) (key : Bytes) : Bytes :=
  memberIdOf (derivedPubkeyOf pubkeyDerive key)

/-- Modelled from the spec: the registry contract itself (GroupAuth.sol)
is not under src, only its ABI and its integration test are. The spec says
a membership record is created by a successful registration transaction
and never mutated or deleted, so the ledger is modelled as the set of
registered member ids, carried as a list. -/
abbrev Ledger := List MemberId

/-- Modelled from the spec: the isMember view of the registry returns
whether a membership record exists for the id. -/
def isMember (l : Ledger) (m : MemberId) : Bool :=
  decide (m ∈ l)

/-- Modelled from the spec: a successful registerDstack transaction
creates the membership record for the id. -/
def registerApply (l : Ledger) (m : MemberId) : Ledger := m :: l

/-- A transaction the startup sequence submits to the registry. -/
inductive RegistryTx where
  | register (m : MemberId)
deriving DecidableEq, Repr

/-- The registration step of the startup sequence, app.py lines 73 to 83:
query isMember for the own member id; if it is true submit nothing,
otherwise submit one registerDstack transaction (modelled as succeeding,
matching the asserted receipt status on line 82). Returns the submitted
transactions and the resulting ledger. -/
def registrationStep (l : Ledger) (myId : MemberId) : List RegistryTx × Ledger :=
  if isMember l myId then ([], l)
  else ([.register myId], registerApply l myId)

/-- The result the attestation service returns for get_key, app.py
line 32: the key bytes and the signature chain. -/
structure AttResult where
  key : Bytes
  signature_chain : List Bytes

/-- An uncaught exception during startup; the process exits non-zero. -/
inductive StartupError where
  | missingAppSignature
  | missingKmsSignature
deriving DecidableEq, Repr

/-- A call made to the ledger during startup. -/
inductive LedgerCall where
  | isMemberQuery (m : MemberId)
  | registerTx (m : MemberId)
deriving DecidableEq, Repr

/-- The startup sequence in source order, app.py lines 32 to 83: truncate
the key, index the signature chain at 0 and then at 1 (an out-of-range
index raises and kills the process, before the web3 connection on line 66
and any ledger interaction), derive the public key and the member id, then
run the registration step. Returns the ledger calls made, and either the
resulting ledger or the startup exception. -/
def startup (pubkeyDerive : Bytes → Bytes) (att : AttResult) (l : Ledger) :
    List LedgerCall × Except StartupError Ledger :=
  match att.signature_chain.get? 0 with
  | none => ([], .error .missingAppSignature)
  | some _ =>
    match att.signature_chain.get? 1 with
    | none => ([], .error .missingKmsSignature)
    | some _ =>
      let myId := memberIdFromKey pubkeyDerive att.key
      if isMember l myId then ([.isMemberQuery myId], .ok l)
      else ([.isMemberQuery myId, .registerTx myId], .ok (registerApply l myId))

/-! Helper lemmas about the event fold. -/

/-- The dedup set only grows during a tick. -/
theorem processEvents_subset (myId : MemberId) (secret : Bytes) (env : TickEnv) :
    ∀ (evts : List Event) (ob : List MemberId) (x : MemberId),
      x ∈ ob → x ∈ (processEvents myId secret env ob evts).1 := by
  intro evts
  induction evts with
  | nil => intro ob x hx; simpa [processEvents] using hx
  | cons evt rest ih =>
    intro ob x hx
    by_cases hskip : evt.memberId = myId ∨ evt.memberId ∈ ob
    · simpa [processEvents, hskip] using ih ob x hx
    · rcases hgm : env.getMember evt.memberId with _ | pk
      · simpa [processEvents, hskip, hgm] using hx
      · rcases henc : env.encrypt pk secret with _ | payload
        · simpa [processEvents, hskip, hgm, henc] using hx
        · rcases htx : env.txOutcome evt.memberId with _ | _ | _
          · simpa [processEvents, hskip, hgm, henc, htx] using
              ih (evt.memberId :: ob) x (List.mem_cons_of_mem _ hx)
          · simpa [processEvents, hskip, hgm, henc, htx] using
              ih (evt.memberId :: ob) x (List.mem_cons_of_mem _ hx)
          · simpa [processEvents, hskip, hgm, henc, htx] using hx

/-- The own member id is never inserted into the dedup set: every
insertion site is guarded by the self check. -/
theorem processEvents_not_self (myId : MemberId) (secret : Bytes) (env : TickEnv) :
    ∀ (evts : List Event) (ob : List MemberId),
      myId ∉ ob → myId ∉ (processEvents myId secret env ob evts).1 := by
  intro evts
  induction evts with
  | nil => intro ob hob; simpa [processEvents] using hob
  | cons evt rest ih =>
    intro ob hob
    by_cases hskip : evt.memberId = myId ∨ evt.memberId ∈ ob
    · simpa [processEvents, hskip] using ih ob hob
    · have hne : evt.memberId ≠ myId := fun hc => hskip (Or.inl hc)
      have hob2 : myId ∉ evt.memberId :: ob := by
        intro hc
        rcases List.mem_cons.mp hc with hc1 | hc2
        · exact hne hc1.symm
        · exact hob hc2
      rcases hgm : env.getMember evt.memberId with _ | pk
      · simpa [processEvents, hskip, hgm] using hob
      · rcases henc : env.encrypt pk secret with _ | payload
        · simpa [processEvents, hskip, hgm, henc] using hob
        · rcases htx : env.txOutcome evt.memberId with _ | _ | _
          · simpa [processEvents, hskip, hgm, henc, htx] using
              ih (evt.memberId :: ob) hob2
          · simpa [processEvents, hskip, hgm, henc, htx] using
              ih (evt.memberId :: ob) hob2
          · simpa [processEvents, hskip, hgm, henc, htx] using hob

/-- The member an uncaught exception was raised for is not in the dedup
set the fold returns: processing only reaches a member that is not yet in
the set, and the exception aborts before the insertion. -/
theorem processEvents_error_not_mem (myId : MemberId) (secret : Bytes) (env : TickEnv) :
    ∀ (evts : List Event) (ob : List MemberId) (e : AgentError),
      (processEvents myId secret env ob evts).2.2 = some e →
      errMember e ∉ (processEvents myId secret env ob evts).1 := by
  intro evts
  induction evts with
  | nil => intro ob e he; simp [processEvents] at he
  | cons evt rest ih =>
    intro ob e he
    by_cases hskip : evt.memberId = myId ∨ evt.memberId ∈ ob
    · rw [show processEvents myId secret env ob (evt :: rest)
          = processEvents myId secret env ob rest by simp [processEvents, hskip]] at he ⊢
      exact ih ob e he
    · have hnotin : evt.memberId ∉ ob := fun hc => hskip (Or.inr hc)
      rcases hgm : env.getMember evt.memberId with _ | pk
      · rw [show processEvents myId secret env ob (evt :: rest)
            = (ob, [], some (.readError evt.memberId)) from by
              simp [processEvents, hskip, hgm]] at he ⊢
        simp only [Option.some.injEq] at he
        subst he
        simpa [errMember] using hnotin
      · rcases henc : env.encrypt pk secret with _ | payload
        · rw [show processEvents myId secret env ob (evt :: rest)
              = (ob, [], some (.encryptionError evt.memberId)) from by
                simp [processEvents, hskip, hgm, henc]] at he ⊢
          simp only [Option.some.injEq] at he
          subst he
          simpa [errMember] using hnotin
        · rcases htx : env.txOutcome evt.memberId with _ | _ | _
          · rw [show (processEvents myId secret env ob (evt :: rest)).2.2
                = (processEvents myId secret env (evt.memberId :: ob) rest).2.2 by
                  simp [processEvents, hskip, hgm, henc, htx]] at he
            rw [show (processEvents myId secret env ob (evt :: rest)).1
                = (processEvents myId secret env (evt.memberId :: ob) rest).1 by
                  simp [processEvents, hskip, hgm, henc, htx]]
            exact ih (evt.memberId :: ob) e he
          · rw [show (processEvents myId secret env ob (evt :: rest)).2.2
                = (processEvents myId secret env (evt.memberId :: ob) rest).2.2 by
                  simp [processEvents, hskip, hgm, henc, htx]] at he
            rw [show (processEvents myId secret env ob (evt :: rest)).1
                = (processEvents myId secret env (evt.memberId :: ob) rest).1 by
                  simp [processEvents, hskip, hgm, henc, htx]]
            exact ih (evt.memberId :: ob) e he
          · rw [show processEvents myId secret env ob (evt :: rest)
                = (ob, [⟨myId, evt.memberId, payload⟩], some (.txTimeout evt.memberId)) from by
                  simp [processEvents, hskip, hgm, henc, htx]] at he ⊢
            simp only [Option.some.injEq] at he
            subst he
            simpa [errMember] using hnotin

/-- If the fold over the fetched events raised no exception, then every
event in the list was either the self id or ended up in the returned
dedup set (already present before the tick, or inserted while handling
it — the insertion happens whether the receipt says confirmed or
reverted). -/
theorem processEvents_none_covered (myId : MemberId) (secret : Bytes) (env : TickEnv) :
    ∀ (evts : List Event) (ob : List MemberId),
      (processEvents myId secret env ob evts).2.2 = none →
      ∀ evt ∈ evts, evt.memberId = myId ∨
        evt.memberId ∈ (processEvents myId secret env ob evts).1 := by
  intro evts
  induction evts with
  | nil => intro ob _ evt hevt; simp at hevt
  | cons evt0 rest ih =>
    intro ob hnone evt hevt
    by_cases hskip : evt0.memberId = myId ∨ evt0.memberId ∈ ob
    · rw [show processEvents myId secret env ob (evt0 :: rest)
          = processEvents myId secret env ob rest from by
            simp [processEvents, hskip]] at hnone ⊢
      rcases List.mem_cons.mp hevt with heq | hmem
      · subst heq
        rcases hskip with h1 | h2
        · exact Or.inl h1
        · exact Or.inr (processEvents_subset myId secret env rest ob _ h2)
      · exact ih ob hnone evt hmem
    · rcases hgm : env.getMember evt0.memberId with _ | pk
      · rw [show processEvents myId secret env ob (evt0 :: rest)
            = (ob, [], some (.readError evt0.memberId)) from by
              simp [processEvents, hskip, hgm]] at hnone
        simp at hnone
      · rcases henc : env.encrypt pk secret with _ | payload
        · rw [show processEvents myId secret env ob (evt0 :: rest)
              = (ob, [], some (.encryptionError evt0.memberId)) from by
                simp [processEvents, hskip, hgm, henc]] at hnone
          simp at hnone
        · rcases htx : env.txOutcome evt0.memberId with _ | _ | _
          · rw [show processEvents myId secret env ob (evt0 :: rest)
                = ((processEvents myId secret env (evt0.memberId :: ob) rest).1,
                   ⟨myId, evt0.memberId, payload⟩ ::
                     (processEvents myId secret env (evt0.memberId :: ob) rest).2.1,
                   (processEvents myId secret env (evt0.memberId :: ob) rest).2.2) from by
                  simp [processEvents, hskip, hgm, henc, htx]] at hnone ⊢
            rcases List.mem_cons.mp hevt with heq | hmem
            · subst heq
              exact Or.inr (processEvents_subset myId secret env rest _ _ (List.mem_cons_self _ _))
            · exact ih (evt0.memberId :: ob) hnone evt hmem
          · rw [show processEvents myId secret env ob (evt0 :: rest)
                = ((processEvents myId secret env (evt0.memberId :: ob) rest).1,
                   ⟨myId, evt0.memberId, payload⟩ ::
                     (processEvents myId secret env (evt0.memberId :: ob) rest).2.1,
                   (processEvents myId secret env (evt0.memberId :: ob) rest).2.2) from by
                  simp [processEvents, hskip, hgm, henc, htx]] at hnone ⊢
            rcases List.mem_cons.mp hevt with heq | hmem
            · subst heq
              exact Or.inr (processEvents_subset myId secret env rest _ _ (List.mem_cons_self _ _))
            · exact ih (evt0.memberId :: ob) hnone evt hmem
          · rw [show processEvents myId secret env ob (evt0 :: rest)
                = (ob, [⟨myId, evt0.memberId, payload⟩], some (.txTimeout evt0.memberId)) from by
                  simp [processEvents, hskip, hgm, henc, htx]] at hnone
            simp at hnone

/-- Every onboarding transaction the fold submits targets an id that
passed the self guard: the recipient is never the own member id. -/
theorem processEvents_txs_not_self (myId : MemberId) (secret : Bytes) (env : TickEnv) :
    ∀ (evts : List Event) (ob : List MemberId) (tx : OnboardTx),
      tx ∈ (processEvents myId secret env ob evts).2.1 → tx.toId ≠ myId := by
  intro evts
  induction evts with
  | nil => intro ob tx htx; simp [processEvents] at htx
  | cons evt rest ih =>
    intro ob tx htx
    by_cases hskip : evt.memberId = myId ∨ evt.memberId ∈ ob
    · rw [show processEvents myId secret env ob (evt :: rest)
          = processEvents myId secret env ob rest from by
            simp [processEvents, hskip]] at htx
      exact ih ob tx htx
    · have hne : evt.memberId ≠ myId := fun hc => hskip (Or.inl hc)
      rcases hgm : env.getMember evt.memberId with _ | pk
      · rw [show processEvents myId secret env ob (evt :: rest)
            = (ob, [], some (.readError evt.memberId)) from by
              simp [processEvents, hskip, hgm]] at htx
        simp at htx
      · rcases henc : env.encrypt pk secret with _ | payload
        · rw [show processEvents myId secret env ob (evt :: rest)
              = (ob, [], some (.encryptionError evt.memberId)) from by
                simp [processEvents, hskip, hgm, henc]] at htx
          simp at htx
        · rcases htxo : env.txOutcome evt.memberId with _ | _ | _
          · rw [show (processEvents myId secret env ob (evt :: rest)).2.1
                = ⟨myId, evt.memberId, payload⟩ ::
                    (processEvents myId secret env (evt.memberId :: ob) rest).2.1 from by
                  simp [processEvents, hskip, hgm, henc, htxo]] at htx
            rcases List.mem_cons.mp htx with heq | hmem
            · subst heq; exact hne
            · exact ih (evt.memberId :: ob) tx hmem
          · rw [show (processEvents myId secret env ob (evt :: rest)).2.1
                = ⟨myId, evt.memberId, payload⟩ ::
                    (processEvents myId secret env (evt.memberId :: ob) rest).2.1 from by
                  simp [processEvents, hskip, hgm, henc, htxo]] at htx
            rcases List.mem_cons.mp htx with heq | hmem
            · subst heq; exact hne
            · exact ih (evt.memberId :: ob) tx hmem
          · rw [show (processEvents myId secret env ob (evt :: rest)).2.1
                = [⟨myId, evt.memberId, payload⟩] from by
                  simp [processEvents, hskip, hgm, henc, htxo]] at htx
            rcases List.mem_cons.mp htx with heq | hmem
            · subst heq; exact hne
            · simp at hmem

/-- A tick never removes the own id from outside the dedup set. -/
theorem tick_not_self (myId : MemberId) (secret : Bytes) (env : TickEnv)
    (st : WatcherState) (h : myId ∉ st.onboarded) :
    myId ∉ (tick myId secret env st).state.onboarded := by
  by_cases hgt : env.currentBlock > st.lastBlock
  · have hpe := processEvents_not_self myId secret env
      (env.logs (st.lastBlock + 1) env.currentBlock) st.onboarded h
    rcases herr : (processEvents myId secret env st.onboarded
        (env.logs (st.lastBlock + 1) env.currentBlock)).2.2 with _ | e
    · simpa [tick, hgt, herr] using hpe
    · simpa [tick, hgt, herr] using hpe
  · simpa [tick, hgt] using h

/-- Over any trace, a state without the own id in its dedup set never
acquires it. -/
theorem runTicks_not_self (myId : MemberId) (secret : Bytes) :
    ∀ (envs : List TickEnv) (st : WatcherState),
      myId ∉ st.onboarded → myId ∉ (runTicks myId secret envs st).onboarded := by
  intro envs
  induction envs with
  | nil => intro st h; simpa [runTicks] using h
  | cons env rest ih =>
    intro st h
    have hstep := tick_not_self myId secret env st h
    rcases hcr : (tick myId secret env st).crashed with _ | e
    · simpa [runTicks, hcr] using ih (tick myId secret env st).state hstep
    · simpa [runTicks, hcr] using hstep

/-! Concrete environments used by the closed-form counterexamples and
witnesses below. The member ids are single-byte stand-ins; nothing in the
watcher loop depends on the 32-byte width of real ids. -/

/-- Environment with one event whose onboarding transaction is reverted
by the registry (the receipt comes back with status 0). -/
def cenvRevert : TickEnv :=
  ⟨5, fun _ _ => [⟨[2], 3⟩], fun _ => some [7], fun _ _ => some [9], fun _ => .reverted⟩

/-- Environment with one event whose onboarding transaction times out in
the receipt wait. -/
def cenvTimeout : TickEnv :=
  ⟨5, fun _ _ => [⟨[2], 3⟩], fun _ => some [7], fun _ _ => some [9], fun _ => .timedOut⟩

/-- Environment with two events in one range where encryption fails for
the first member (pubkey [4]) and would succeed for the second. -/
def cenvEncFail : TickEnv :=
  ⟨5, fun _ _ => [⟨[2], 3⟩, ⟨[3], 3⟩],
   fun m => if m = [2] then some [4] else some [5],
   fun pk _ => if pk = [4] then none else some [9],
   fun _ => .confirmed⟩

/-- Environment whose chain head has not advanced past watermark 5. -/
def cenvStale : TickEnv :=
  ⟨5, fun _ _ => [⟨[2], 3⟩], fun _ => some [7], fun _ _ => some [9], fun _ => .confirmed⟩

/-- Claim C4: watermark monotonicity. For every poll tick, lastSeenBlock
after the tick is at least its value before the tick, and it changes only
when the tick ran to completion without an exception, in which case every
event in the fetched range was either the self id or is in the dedup set
after the tick (already there before as a duplicate, or inserted while
handling the event). -/
theorem tick_watermark_monotone (myId : MemberId) (secret : Bytes) (env : TickEnv)
    (st : WatcherState) :
    st.lastBlock ≤ (tick myId secret env st).state.lastBlock ∧
    ((tick myId secret env st).state.lastBlock ≠ st.lastBlock →
      (tick myId secret env st).crashed = none ∧
      ∀ evt ∈ env.logs (st.lastBlock + 1) env.currentBlock,
        evt.memberId = myId ∨ evt.memberId ∈ (tick myId secret env st).state.onboarded) := by
  by_cases hgt : env.currentBlock > st.lastBlock
  · rcases herr : (processEvents myId secret env st.onboarded
        (env.logs (st.lastBlock + 1) env.currentBlock)).2.2 with _ | e
    · constructor
      · simp [tick, hgt, herr]
        omega
      · intro _
        constructor
        · simp [tick, hgt, herr]
        · intro evt hevt
          have := processEvents_none_covered myId secret env
            (env.logs (st.lastBlock + 1) env.currentBlock) st.onboarded herr evt hevt
          simpa [tick, hgt, herr] using this
    · constructor
      · simp [tick, hgt, herr]
      · intro hne
        exact absurd (by simp [tick, hgt, herr]) hne
  · constructor
    · simp [tick, hgt]
    · intro hne
      exact absurd (by simp [tick, hgt]) hne

/-- Witness for C4, at the environment with one reverted transaction: the
tick advanced the watermark from 0 to 5, hence it did not crash and the
event member [2] (which is not the self id [1]) is in the dedup set. -/
theorem tick_watermark_monotone_witness :
    (tick [1] [0] cenvRevert ⟨0, []⟩).crashed = none ∧
    (([2] : MemberId) = [1] ∨ ([2] : MemberId) ∈ (tick [1] [0] cenvRevert ⟨0, []⟩).state.onboarded) :=
  ⟨((tick_watermark_monotone [1] [0] cenvRevert ⟨0, []⟩).2 (by decide)).1,
   ((tick_watermark_monotone [1] [0] cenvRevert ⟨0, []⟩).2 (by decide)).2 ⟨[2], 3⟩ (by decide)⟩

/-- Claim C5: no self-onboarding. Every onboarding transaction submitted
during any tick targets an id different from the own member id; in
particular an event carrying the own id never produces a transaction. -/
theorem tick_no_self_onboard (myId : MemberId) (secret : Bytes) (env : TickEnv)
    (st : WatcherState) :
    ∀ tx ∈ (tick myId secret env st).txs, tx.toId ≠ myId := by
  intro tx htx
  by_cases hgt : env.currentBlock > st.lastBlock
  · rcases herr : (processEvents myId secret env st.onboarded
        (env.logs (st.lastBlock + 1) env.currentBlock)).2.2 with _ | e
    · have hmem : tx ∈ (processEvents myId secret env st.onboarded
          (env.logs (st.lastBlock + 1) env.currentBlock)).2.1 := by
        simpa [tick, hgt, herr] using htx
      exact processEvents_txs_not_self myId secret env _ st.onboarded tx hmem
    · have hmem : tx ∈ (processEvents myId secret env st.onboarded
          (env.logs (st.lastBlock + 1) env.currentBlock)).2.1 := by
        simpa [tick, hgt, herr] using htx
      exact processEvents_txs_not_self myId secret env _ st.onboarded tx hmem
  · simp [tick, hgt] at htx

/-- Witness for C5: the transaction actually submitted in the reverting
environment targets [2], not the self id [1]. -/
theorem tick_no_self_onboard_witness : (⟨[1], [2], [9]⟩ : OnboardTx).toId ≠ [1] :=
  tick_no_self_onboard [1] [0] cenvRevert ⟨0, []⟩ ⟨[1], [2], [9]⟩ (by decide)

/-- Claim C6: a tick that observes currentBlock at or below lastSeenBlock
is a no-op: it fetches no events, submits no transactions, raises nothing,
and leaves the state untouched. -/
theorem tick_no_new_blocks_noop (myId : MemberId) (secret : Bytes) (env : TickEnv)
    (st : WatcherState) (h : env.currentBlock ≤ st.lastBlock) :
    tick myId secret env st = ⟨st, [], false, none⟩ := by
  have hgt : ¬ env.currentBlock > st.lastBlock := by omega
  simp [tick, hgt]

/-- Witness for C6, at the stale environment (chain head 5, watermark 7). -/
theorem tick_no_new_blocks_noop_witness :
    tick [1] [0] cenvStale ⟨7, [[3]]⟩ = ⟨⟨7, [[3]]⟩, [], false, none⟩ :=
  tick_no_new_blocks_noop [1] [0] cenvStale ⟨7, [[3]]⟩ (by decide)

/-- Claim C10: the own member id is never an element of the dedup set.
The set starts empty and every insertion is guarded by the self check, so
over any trace of ticks the agent never counts itself. -/
theorem runTicks_own_id_not_onboarded (myId : MemberId) (secret : Bytes)
    (envs : List TickEnv) (startBlock : Nat) :
    myId ∉ (runTicks myId secret envs ⟨startBlock, []⟩).onboarded :=
  runTicks_not_self myId secret envs ⟨startBlock, []⟩ (by simp)

/-- Witness for C10, over a one-tick trace that does onboard member [2]. -/
theorem runTicks_own_id_not_onboarded_witness :
    ([1] : MemberId) ∉ (runTicks [1] [0] [cenvRevert] ⟨0, []⟩).onboarded :=
  runTicks_own_id_not_onboarded [1] [0] [cenvRevert] 0

/-- Claim C1 (amended): failure handling of the onboarding transaction.
If the receipt wait times out, the uncaught exception ends the tick with
the member not in the dedup set and the watermark unchanged — but the
loop crashes instead of retrying on the next tick. If the transaction is
reverted, the failure goes undetected because the receipt status is never
read: when the tick completes without an exception after fetching a
range, the watermark jumps to the chain head and every non-self event
member in the range — including those whose transactions reverted — is in
the dedup set, so the event is never retried. -/
theorem tick_transaction_failure_behavior (myId : MemberId) (secret : Bytes)
    (env : TickEnv) (st : WatcherState) :
    (∀ m : MemberId, (tick myId secret env st).crashed = some (.txTimeout m) →
      m ∉ (tick myId secret env st).state.onboarded ∧
      (tick myId secret env st).state.lastBlock = st.lastBlock) ∧
    ((tick myId secret env st).crashed = none → st.lastBlock < env.currentBlock →
      (tick myId secret env st).state.lastBlock = env.currentBlock ∧
      ∀ evt ∈ env.logs (st.lastBlock + 1) env.currentBlock,
        evt.memberId ≠ myId → evt.memberId ∈ (tick myId secret env st).state.onboarded) := by
  by_cases hgt : env.currentBlock > st.lastBlock
  · rcases herr : (processEvents myId secret env st.onboarded
        (env.logs (st.lastBlock + 1) env.currentBlock)).2.2 with _ | e
    · constructor
      · intro m hm
        exact absurd hm (by simp [tick, hgt, herr])
      · intro _ _
        constructor
        · simp [tick, hgt, herr]
        · intro evt hevt hne
          have := processEvents_none_covered myId secret env
            (env.logs (st.lastBlock + 1) env.currentBlock) st.onboarded herr evt hevt
          rcases this with h1 | h2
          · exact absurd h1 hne
          · simpa [tick, hgt, herr] using h2
    · constructor
      · intro m hm
        have hcr : (tick myId secret env st).crashed = some e := by simp [tick, hgt, herr]
        rw [hcr] at hm
        have he : e = .txTimeout m := by simpa using hm
        subst he
        have := processEvents_error_not_mem myId secret env
          (env.logs (st.lastBlock + 1) env.currentBlock) st.onboarded _ herr
        constructor
        · simpa [tick, hgt, herr, errMember] using this
        · simp [tick, hgt, herr]
      · intro hnone
        exact absurd (by simp [tick, hgt, herr] : (tick myId secret env st).crashed = some e)
          (by simp [hnone])
  · constructor
    · intro m hm
      exact absurd hm (by simp [tick, hgt])
    · intro _ hlt
      omega

/-- Counterexample to claim C1 as stated: in cenvRevert the onboarding
transaction for the sole event (member [2], block 3) is submitted and
reverted, yet after the tick the member is in the dedup set, the
watermark advanced from 0 past block 3 to the chain head 5, and no
exception was raised — the event is never re-fetched or retried. -/
theorem tick_reverted_marks_onboarded_cex :
    cenvRevert.txOutcome [2] = .reverted ∧
    (⟨[1], [2], [9]⟩ : OnboardTx) ∈ (tick [1] [0] cenvRevert ⟨0, []⟩).txs ∧
    (tick [1] [0] cenvRevert ⟨0, []⟩).crashed = none ∧
    ([2] : MemberId) ∈ (tick [1] [0] cenvRevert ⟨0, []⟩).state.onboarded ∧
    (tick [1] [0] cenvRevert ⟨0, []⟩).state.lastBlock = 5 := by
  decide

/-- Witness for C1 (amended), at the timeout environment: the tick crashed
with a timeout on member [2], and indeed [2] is not in the dedup set and
the watermark stayed at 0. -/
theorem tick_transaction_failure_behavior_witness :
    (([2] : MemberId) ∉ (tick [1] [0] cenvTimeout ⟨0, []⟩).state.onboarded ∧
      (tick [1] [0] cenvTimeout ⟨0, []⟩).state.lastBlock = 0) ∧
    ([2] : MemberId) ∈ (tick [1] [0] cenvRevert ⟨0, []⟩).state.onboarded :=
  ⟨(tick_transaction_failure_behavior [1] [0] cenvTimeout ⟨0, []⟩).1 [2] (by decide),
   ((tick_transaction_failure_behavior [1] [0] cenvRevert ⟨0, []⟩).2
     (by decide) (by decide)).2 ⟨[2], 3⟩ (by decide) (by decide)⟩

/-- Claim C2 (amended): failure handling of the shared-secret encryption.
When encrypting to a member raises (malformed recipient public key), that
member is not added to the dedup set and the watermark does not advance —
but the exception is uncaught, so the tick halts the loop and the
remaining members of the range are not processed in that tick; they and
the failing member are only seen again after a process restart. -/
theorem tick_encryption_failure_behavior (myId : MemberId) (secret : Bytes)
    (env : TickEnv) (st : WatcherState) :
    ∀ m : MemberId, (tick myId secret env st).crashed = some (.encryptionError m) →
      m ∉ (tick myId secret env st).state.onboarded ∧
      (tick myId secret env st).state.lastBlock = st.lastBlock := by
  intro m hm
  by_cases hgt : env.currentBlock > st.lastBlock
  · rcases herr : (processEvents myId secret env st.onboarded
        (env.logs (st.lastBlock + 1) env.currentBlock)).2.2 with _ | e
    · exact absurd hm (by simp [tick, hgt, herr])
    · have hcr : (tick myId secret env st).crashed = some e := by simp [tick, hgt, herr]
      rw [hcr] at hm
      have he : e = .encryptionError m := by simpa using hm
      subst he
      have := processEvents_error_not_mem myId secret env
        (env.logs (st.lastBlock + 1) env.currentBlock) st.onboarded _ herr
      constructor
      · simpa [tick, hgt, herr, errMember] using this
      · simp [tick, hgt, herr]
  · exact absurd hm (by simp [tick, hgt])

/-- Counterexample to claim C2 as stated: in cenvEncFail the range holds
two events, members [2] and [3]; encryption fails for member [2]. The
tick dies on the uncaught exception: no transaction at all is submitted,
member [3] — whose encryption would have succeeded — is not processed and
not in the dedup set, so the loop did halt and did block the remaining
member of the range. -/
theorem tick_encfail_halts_cex :
    cenvEncFail.encrypt [4] [0] = none ∧
    (tick [1] [0] cenvEncFail ⟨0, []⟩).crashed = some (.encryptionError [2]) ∧
    (tick [1] [0] cenvEncFail ⟨0, []⟩).txs = [] ∧
    ([3] : MemberId) ∉ (tick [1] [0] cenvEncFail ⟨0, []⟩).state.onboarded ∧
    ([2] : MemberId) ∉ (tick [1] [0] cenvEncFail ⟨0, []⟩).state.onboarded := by
  decide

/-- Witness for C2 (amended), at the encryption-failure environment: the
tick crashed with an encryption error on member [2], and indeed [2] is
not in the dedup set and the watermark stayed at 0. -/
theorem tick_encryption_failure_behavior_witness :
    ([2] : MemberId) ∉ (tick [1] [0] cenvEncFail ⟨0, []⟩).state.onboarded ∧
    (tick [1] [0] cenvEncFail ⟨0, []⟩).state.lastBlock = 0 :=
  tick_encryption_failure_behavior [1] [0] cenvEncFail ⟨0, []⟩ [2] (by decide)

/-- The registration transactions among the ledger calls of a startup
run. -/
def registerCalls (calls : List LedgerCall) : List LedgerCall :=
  calls.filter (fun c => match c with | .registerTx _ => true | _ => false)

/-- Claim C3: idempotent registration. Whenever isMember already holds
for the derived member id, the startup sequence submits no registration
transaction; and a startup run followed by a second run against the
ledger it produced submits at most one registration transaction in
total. -/
theorem startup_registration_idempotent (pd : Bytes → Bytes) (att : AttResult)
    (l : Ledger) :
    (isMember l (memberIdFromKey pd att.key) = true →
      registerCalls (startup pd att l).1 = []) ∧
    (∀ l2 : Ledger, (startup pd att l).2 = .ok l2 →
      (registerCalls (startup pd att l).1).length +
        (registerCalls (startup pd att l2).1).length ≤ 1) := by
  rcases h0 : att.signature_chain[0]? with _ | s0
  · constructor
    · intro _; simp [startup, h0, registerCalls]
    · intro l2 hok; simp [startup, h0] at hok
  · rcases h1 : att.signature_chain[1]? with _ | s1
    · constructor
      · intro _; simp [startup, h0, h1, registerCalls]
      · intro l2 hok; simp [startup, h0, h1] at hok
    · by_cases hmem : isMember l (memberIdFromKey pd att.key)
      · constructor
        · intro _; simp [startup, h0, h1, hmem, registerCalls]
        · intro l2 hok
          have hl2 : l2 = l := by
            have := hok
            simp [startup, h0, h1, hmem] at this
            exact this.symm
          subst hl2
          simp [startup, h0, h1, hmem, registerCalls]
      · constructor
        · intro hc; exact absurd hc (by simpa using hmem)
        · intro l2 hok
          have hl2 : l2 = registerApply l (memberIdFromKey pd att.key) := by
            have := hok
            simp [startup, h0, h1, hmem] at this
            exact this.symm
          subst hl2
          have hmem2 : isMember (registerApply l (memberIdFromKey pd att.key))
              (memberIdFromKey pd att.key) = true := by
            simp [isMember, registerApply]
          simp [startup, h0, h1, hmem, hmem2, registerCalls]

/-- Witness for C3, with a two-link chain and the empty ledger: the first
run registers, the second run against the resulting ledger submits
nothing, one registration transaction in total. -/
theorem startup_registration_idempotent_witness :
    registerCalls (startup (fun b => b) ⟨[7], [[5], [6]]⟩
      [memberIdFromKey (fun b => b) [7]]).1 = [] ∧
    (registerCalls (startup (fun b => b) ⟨[7], [[5], [6]]⟩ []).1).length +
      (registerCalls (startup (fun b => b) ⟨[7], [[5], [6]]⟩
        (registerApply [] (memberIdFromKey (fun b => b) [7]))).1).length ≤ 1 :=
  ⟨(startup_registration_idempotent (fun b => b) ⟨[7], [[5], [6]]⟩
      [memberIdFromKey (fun b => b) [7]]).1 (by simp [isMember]),
   (startup_registration_idempotent (fun b => b) ⟨[7], [[5], [6]]⟩ []).2
     (registerApply [] (memberIdFromKey (fun b => b) [7]))
     (by simp [startup, isMember])⟩

/-- Claim C7: a signature chain of length 1 is fatal before any ledger
interaction. The chain is indexed at position 1 before the web3
connection is even built, so the startup run ends in the startup error
with an empty list of ledger calls: no isMember query and no
registration transaction ever happens. -/
theorem startup_short_chain_fatal (pd : Bytes → Bytes) (att : AttResult)
    (l : Ledger) (h : att.signature_chain.length = 1) :
    (startup pd att l).1 = [] ∧
    (startup pd att l).2 = .error .missingKmsSignature := by
  rcases List.length_eq_one.mp h with ⟨a, ha⟩
  simp [startup, ha]

/-- Witness for C7, at a chain holding exactly one signature. -/
theorem startup_short_chain_fatal_witness :
    (startup (fun b => b) ⟨[7], [[5]]⟩ []).1 = [] ∧
    (startup (fun b => b) ⟨[7], [[5]]⟩ []).2 = .error .missingKmsSignature :=
  startup_short_chain_fatal (fun b => b) ⟨[7], [[5]]⟩ [] (by decide)

/-- Claim C8: deterministic member identifier. The member id of a
compressed public key is exactly keccak-256 of that key (the solidity
packed encoding of a single bytes argument is the raw byte string), it is
always 32 bytes long, and it is a function of the key alone: equal keys
give equal ids. -/
theorem memberId_deterministic_keccak (pk : Bytes) :
    memberIdOf pk = keccak256 pk ∧
    (memberIdOf pk).length = 32 ∧
    ∀ pk2 : Bytes, pk = pk2 → memberIdOf pk = memberIdOf pk2 := by
  refine ⟨rfl, ?_, ?_⟩
  · simp [memberIdOf, solidityKeccakBytes, encodePackedBytes, keccak256]
  · intro pk2 h
    rw [h]

/-- Witness for C8, at a concrete two-byte key. -/
theorem memberId_deterministic_keccak_witness :
    memberIdOf [2, 3] = keccak256 [2, 3] ∧
    (memberIdOf [2, 3]).length = 32 ∧
    memberIdOf [2, 3] = memberIdOf [2, 3] :=
  ⟨(memberId_deterministic_keccak [2, 3]).1,
   (memberId_deterministic_keccak [2, 3]).2.1,
   (memberId_deterministic_keccak [2, 3]).2.2 [2, 3] rfl⟩

/-- Claim C9: the key returned by the attestation service is truncated to
its first 32 bytes. For any returned key longer than 32 bytes the derived
key, the derived public key and the member id computed from the full key
coincide with those computed from its leading 32 bytes — a longer key is
silently truncated, never rejected — and the derived key is exactly 32
bytes long. -/
theorem derived_identity_truncates_key (pd : Bytes → Bytes) (key : Bytes)
    (h : 32 < key.length) :
    derivedKeyOf key = derivedKeyOf (key.take 32) ∧
    derivedPubkeyOf pd key = derivedPubkeyOf pd (key.take 32) ∧
    memberIdFromKey pd key = memberIdFromKey pd (key.take 32) ∧
    (derivedKeyOf key).length = 32 := by
  have htake : derivedKeyOf key = derivedKeyOf (key.take 32) := by
    simp [derivedKeyOf, List.take_take]
  refine ⟨htake, ?_, ?_, ?_⟩
  · simp [derivedPubkeyOf, htake]
  · simp [memberIdFromKey, derivedPubkeyOf, htake]
  · simp [derivedKeyOf]
    omega

/-- Witness for C9, at a 33-byte key of sevens. -/
theorem derived_identity_truncates_key_witness :
    derivedKeyOf (List.replicate 33 7) = derivedKeyOf ((List.replicate 33 7).take 32) ∧
    derivedPubkeyOf (fun b => b) (List.replicate 33 7)
      = derivedPubkeyOf (fun b => b) ((List.replicate 33 7).take 32) ∧
    memberIdFromKey (fun b => b) (List.replicate 33 7)
      = memberIdFromKey (fun b => b) ((List.replicate 33 7).take 32) ∧
    (derivedKeyOf (List.replicate 33 7)).length = 32 :=
  derived_identity_truncates_key (fun b => b) (List.replicate 33 7) (by simp)

end GroupAuth

